import Mathlib

/-!
Verification of the tredis event/ingestion core against its specification.

This file shallowly embeds the relevant parts of the source:
  * `parse_monitor_output` and the monitor read-loop line step (src/main.rs),
  * the `App` state container with its key-browsing pagination engine
    (`next_page`, `prev_page`, `apply_filter`, the filter-commit key handler)
    from src/app.rs and src/main.rs,
  * the update-loop event handlers (`AppEvent::MonitorCommand`,
    `AppEvent::PubSubMessage`, `AppEvent::StreamMessage`) with their
    capacity-1000 ring-buffer insertions (src/main.rs),
  * the monitor collector lifecycle (`start`/`stop_monitor`) and the stream
    consumer task body (src/main.rs).

Conventions used throughout:
  * Rust `u64`/`usize` values that are never subject to overflowing
    arithmetic in the modelled code are embedded as `Nat`; `i64` as `Int`.
  * A Rust `Vec` used as a stack (`push`/`pop` at the end) is embedded as a
    `List` whose head is the top of the stack.
  * Network interactions are embedded by passing the reply a command would
    have produced as an explicit argument (`ScanReply`, `PollResult`);
    a code path performs a network call exactly when the embedded function
    consumes such an argument on that path.
  * Local-time formatting of an epoch second count (chrono) is abstracted
    as an explicit function argument `fmt : Int → String`.
-/

set_option autoImplicit false
-- the embedding deliberately keeps arguments the source binds but ignores
-- (the logged-only XGROUP result, the absent generation tag, the MATCH pattern)
set_option linter.unusedVariables false

namespace Tredis

/-- Model of `model::MonitorEntry`: one parsed MONITOR line. -/
structure MonitorEntry where
  timestamp : String
  db : String
  client : String
  command : String
  deriving DecidableEq, Repr

/-- Model of `model::KeyInfo` (the fields relevant to filtering). -/
structure KeyInfo where
  key : String
  key_type : String
  ttl : Int
  deriving DecidableEq, Repr

/-- Model of `model::StreamEntry`; the `HashMap<String,String>` of fields is
embedded as the association list in the order the XREADGROUP reply listed
them. -/
structure StreamEntry where
  id : String
  fields : List (String × String)
  deriving DecidableEq, Repr

/-- Model of `model::PubSubMessage`. -/
structure PubSubMessage where
  timestamp : String
  channel : String
  message : String
  deriving DecidableEq, Repr

/-- Model of `app::PaginationState` (src/app.rs). The Rust
`cursor_stack : Vec<u64>` pushes and pops at the end; it is embedded with
the list head as the top of the stack. -/
structure PaginationState where
  cursor : Nat
  next_cursor : Nat
  cursor_stack : List Nat
  total_keys : Nat
  page_size : Nat
  deriving DecidableEq, Repr

/-- `PaginationState::default()` (src/app.rs). -/
def paginationDefault : PaginationState :=
  { cursor := 0, next_cursor := 0, cursor_stack := [], total_keys := 0, page_size := 100 }

/-- The slice of the `App` struct (src/app.rs) that the verified operations
touch.  `monitor_task : Option<JoinHandle>` is embedded as the generation
number of the live collector task, and `monitor_spawns` counts how many
monitor collector instances have ever been started; both are provenance
bookkeeping that lets the development talk about event generations — the
running code stores only an opaque task handle and its events carry no
generation field. -/
structure App where
  filter_text : String
  filter_active : Bool
  all_keys : List KeyInfo
  scan_result : List KeyInfo
  selected_key_index : Nat
  pagination : PaginationState
  monitor_entries : List MonitorEntry
  selected_monitor_index : Nat
  monitor_scroll : Nat
  monitor_active : Bool
  monitor_task : Option Nat
  monitor_spawns : Nat
  deriving DecidableEq, Repr

/-- The corresponding slice of `App::new()` (src/app.rs). -/
def appDefault : App :=
  { filter_text := ""
    filter_active := false
    all_keys := []
    scan_result := []
    selected_key_index := 0
    pagination := paginationDefault
    monitor_entries := []
    selected_monitor_index := 0
    monitor_scroll := 0
    monitor_active := false
    monitor_task := none
    monitor_spawns := 0 }

/-- The data a single `App::fetch_keys` round trip obtains from the server:
the `DBSIZE` reply, the `SCAN` continuation cursor, and the returned keys
together with their per-key `TYPE`/`TTL` lookups. -/
structure ScanReply where
  total : Nat
  next_cursor : Nat
  keys : List KeyInfo
  deriving DecidableEq, Repr

/-- Rust `char::to_lowercase` as used via `str::to_lowercase` on key names,
embedded per character with `Char.toLower` (they agree on ASCII, which is
what the case-insensitive key filter is specified for). -/
def lowerString (s : String) : String :=
  String.mk (s.data.map Char.toLower)

/-- Rust `str::contains(&str)`: `containsSeq hay needle` is true when
`needle` occurs contiguously inside `hay`. -/
def containsSeq : List Char → List Char → Bool
  | hay, needle =>
    needle.isPrefixOf hay ||
      match hay with
      | [] => false
      | _ :: t => containsSeq t needle

/-- `App::apply_filter` (src/app.rs): recompute `scan_result` from
`all_keys` by a case-insensitive substring match on `filter_text`, then
clamp `selected_key_index`. -/
def apply_filter (s : App) : App :=
  let s :=
    if s.filter_text.isEmpty then
      { s with scan_result := s.all_keys }
    else
      let filter := lowerString s.filter_text
      { s with scan_result :=
          s.all_keys.filter (fun k => containsSeq (lowerString k.key).data filter.data) }
  if s.selected_key_index ≥ s.scan_result.length then
    if ¬ s.scan_result.isEmpty then
      { s with selected_key_index := s.scan_result.length - 1 }
    else
      { s with selected_key_index := 0 }
  else s

/-- `App::fetch_keys` (src/app.rs): record the `DBSIZE` total, issue
`SCAN cursor [MATCH *pattern*] COUNT page_size`, adopt the returned
continuation cursor as `next_cursor`, replace `all_keys` with the fetched
page, and re-apply the client-side filter.  The server's reply is the
explicit `reply` argument; `pattern` is what the code would have put in the
`MATCH` clause. -/
def fetch_keys (reply : ScanReply) (pattern : Option String) (s : App) : App :=
  apply_filter
    { s with
      pagination :=
        { s.pagination with total_keys := reply.total, next_cursor := reply.next_cursor }
      all_keys := reply.keys }

/-- `App::next_page` (src/app.rs): when `next_cursor != 0`, push the current
cursor, adopt `next_cursor`, and refetch (with the current filter text as
pattern when nonempty); otherwise do nothing. -/
def next_page (reply : ScanReply) (s : App) : App :=
  if s.pagination.next_cursor ≠ 0 then
    let p := { s.pagination with
                cursor_stack := s.pagination.cursor :: s.pagination.cursor_stack
                cursor := s.pagination.next_cursor }
    let pattern := if s.filter_text.isEmpty then none else some s.filter_text
    fetch_keys reply pattern { s with pagination := p }
  else s

/-- `App::prev_page` (src/app.rs): pop the most recent cursor (no-op when
the stack is empty) and refetch with it. -/
def prev_page (reply : ScanReply) (s : App) : App :=
  match s.pagination.cursor_stack with
  | [] => s
  | prev :: rest =>
    let p := { s.pagination with cursor := prev, cursor_stack := rest }
    let pattern := if s.filter_text.isEmpty then none else some s.filter_text
    fetch_keys reply pattern { s with pagination := p }

/-- The guard under which `App::next_page` issues its fetch: the body of
`next_page` performs network calls exactly when `next_cursor != 0`. -/
def next_page_fetches (s : App) : Bool :=
  s.pagination.next_cursor != 0

/-- The filter-commit key handler (Enter while `filter_active`,
src/main.rs): leave filter-input mode, reset `cursor` to 0, clear the
cursor stack, and refetch server-side with the filter text as pattern. -/
def filter_commit (reply : ScanReply) (s : App) : App :=
  let s := { s with
              filter_active := false
              pagination := { s.pagination with cursor := 0, cursor_stack := [] } }
  fetch_keys reply (some s.filter_text) s

/-- The filter-typing key handler (Char while `filter_active`,
src/main.rs): append the character and re-apply the client-side filter;
no network interaction. -/
def filter_type_char (c : Char) (s : App) : App :=
  apply_filter { s with filter_text := s.filter_text.push c }

/-- The filter-backspace key handler (src/main.rs): drop the last character
of the filter text (`String::pop`) and re-apply the client-side filter. -/
def filter_backspace (s : App) : App :=
  apply_filter { s with filter_text := String.mk s.filter_text.data.dropLast }

/-- The ring-buffer insertion shared verbatim by the three update-loop
event handlers (src/main.rs, `MonitorCommand`, `PubSubMessage` and
`StreamMessage`): `insert(0, e)` followed by `if len > cap then pop()`
(newest-first, oldest evicted). -/
def ringPush {α : Type} (cap : Nat) (e : α) (l : List α) : List α :=
  let l := e :: l
  if l.length > cap then l.dropLast else l

/-- The `AppEvent::MonitorCommand` handler of the update loop
(src/main.rs): when `monitor_active`, push the entry into the capacity-1000
ring and adjust the selection/scroll; otherwise drop the event.  The `gen`
argument is the generation number of the collector instance that produced
the event — it is provenance bookkeeping only, because the event value in
the code carries no generation field and the handler cannot read one. -/
def handle_monitor_command (gen : Nat) (entry : MonitorEntry) (s : App) : App :=
  if s.monitor_active then
    let s := { s with monitor_entries := ringPush 1000 entry s.monitor_entries }
    if s.selected_monitor_index == 0 && s.monitor_scroll == 0 then
      { s with selected_monitor_index := 0, monitor_scroll := 0 }
    else
      { s with selected_monitor_index := s.selected_monitor_index + 1 }
  else s

/-- Starting the monitor collector (Resources-mode Enter on "monitor",
src/main.rs): set `monitor_active`, clear the ring, and spawn a fresh
collector task.  The new instance's generation number is the incremented
spawn counter; the generation of the currently active collector instance
is therefore `monitor_spawns` after this call. -/
def start_monitor (s : App) : App :=
  { s with
    monitor_active := true
    monitor_entries := []
    monitor_spawns := s.monitor_spawns + 1
    monitor_task := some (s.monitor_spawns + 1) }

/-- `App::stop_monitor` (src/app.rs): clear `monitor_active`, abort and
drop the task handle, clear the ring. -/
def stop_monitor (s : App) : App :=
  { s with
    monitor_active := false
    monitor_task := none
    monitor_entries := [] }

/-- One iteration's outcome of the stream consumer's `XREADGROUP` poll
(src/main.rs): either a reply listing, per stream key, the batch of
`(entry id, fields)` records, or an error that either is a timeout or is
not. -/
inductive PollResult where
  | ok (streams : List (String × List (String × List (String × String))))
  | err (timedOut : Bool)
  deriving DecidableEq, Repr

/-- The stream consumer's poll loop (src/main.rs): for every record of an
`Ok` reply emit a `StreamMessage` event (and then XACK it); on a non-timeout
error break out of the loop; on a timeout continue.  The value is the
sequence of emitted events. -/
def consume_polls : List PollResult → List StreamEntry
  | [] => []
  | PollResult.ok streams :: rest =>
    (streams.flatMap fun sk => sk.2.map fun msg => StreamEntry.mk msg.1 msg.2)
      ++ consume_polls rest
  | PollResult.err timedOut :: rest =>
    if timedOut then consume_polls rest else []

/-- The body of the stream consumer task after the connection is obtained
(src/main.rs): issue `XGROUP CREATE ... 0 MKSTREAM`, bind its result to a
variable that is only logged, then run the poll loop.  `xgroupResult` is
the reply to the creation command; `polls` are the subsequent XREADGROUP
outcomes. -/
def stream_consumer (xgroupResult : Except String String)
    (polls : List PollResult) : List StreamEntry :=
  consume_polls polls

/-- Split a character list at the first occurrence of `c`, if any. -/
def splitOnceChar (c : Char) : List Char → Option (List Char × List Char)
  | [] => none
  | x :: xs =>
    if x = c then some ([], xs)
    else (splitOnceChar c xs).map fun p => (x :: p.1, p.2)

/-- Rust `str::splitn(3, ' ')` collected into a `Vec` (src/main.rs,
`parse_monitor_output`): split at the first two occurrences of `c`,
keeping the remainder intact as the third piece.  Always returns one, two
or three pieces; the empty input gives the single piece `[[]]`. -/
def splitn3 (c : Char) (l : List Char) : List (List Char) :=
  match splitOnceChar c l with
  | none => [l]
  | some (a, rest) =>
    match splitOnceChar c rest with
    | none => [a, rest]
    | some (b, rest2) => [a, b, rest2]

/-- Rust `str::splitn(2, ' ')` collected into a `Vec` (used on the bracket
contents). -/
def splitn2 (c : Char) (l : List Char) : List (List Char) :=
  match splitOnceChar c l with
  | none => [l]
  | some (a, rest) => [a, rest]

/-- Rust `str::trim_matches(.. c == '[' or c == ']' ..)`: strip every
leading and trailing bracket character (interior ones stay). -/
def trimBrackets (l : List Char) : List Char :=
  let p := fun c => c = '[' || c = ']'
  ((l.dropWhile p).reverse.dropWhile p).reverse

/-- Accumulate a digit run as a number. -/
def digitsVal (l : List Char) : Nat :=
  l.foldl (fun a c => a * 10 + (c.toNat - '0'.toNat)) 0

/-- Model of `timestamp_raw.parse::<f64>()` followed by the
`as i64` truncation toward zero (src/main.rs, `parse_monitor_output`):
`some secs` when the token is a finite decimal the Rust float grammar
accepts (`[+-] digits [. digits] [(e|E) [+-] digits]`, with at least one
digit before or after the point), `none` otherwise.  Deviations from IEEE
f64, both documented and irrelevant to the claims proved here: the
truncated value is computed exactly rather than after rounding to the
nearest double, and the textual forms `inf`/`infinity`/`nan` are rejected
here whereas Rust parses them to non-finite values — values which fall
outside chrono's representable range and hence take the same raw-token
fallback path in the source as a failed parse does. -/
def parseF64trunc (l : List Char) : Option Int :=
  let signArm : Int × List Char :=
    match l with
    | '+' :: t => (1, t)
    | '-' :: t => (-1, t)
    | t => (1, t)
  let sign := signArm.1
  let l1 := signArm.2
  let intD := l1.takeWhile Char.isDigit
  let l2 := l1.dropWhile Char.isDigit
  let fracArm : List Char × List Char :=
    match l2 with
    | '.' :: t => (t.takeWhile Char.isDigit, t.dropWhile Char.isDigit)
    | t => ([], t)
  let fracD := fracArm.1
  let l3 := fracArm.2
  if intD.isEmpty && fracD.isEmpty then none
  else
    match l3 with
    | [] => some (sign * Int.ofNat (digitsVal intD))
    | e :: t =>
      if e = 'e' || e = 'E' then
        let expArm : Int × List Char :=
          match t with
          | '+' :: u => (1, u)
          | '-' :: u => (-1, u)
          | u => (1, u)
        let expD := expArm.2.takeWhile Char.isDigit
        let rest := expArm.2.dropWhile Char.isDigit
        if expD.isEmpty || !rest.isEmpty then none
        else
          let mant := digitsVal (intD ++ fracD)
          let shift : Int := expArm.1 * Int.ofNat (digitsVal expD) - Int.ofNat fracD.length
          let mag : Nat :=
            if 0 ≤ shift then mant * 10 ^ shift.toNat else mant / 10 ^ (-shift).toNat
          some (sign * Int.ofNat mag)
      else none

/-- `parse_monitor_output` (src/main.rs): discard empty lines and lines
whose `splitn(3, ' ')` yields fewer than three pieces; otherwise build an
entry whose timestamp is the local-time rendering of the first token when
it parses as a float (abstracted as `fmt` applied to the truncated epoch
seconds — the `"%Y-%m-%d %H:%M:%S"` format shows nothing below one second)
and the raw token otherwise, whose db/client come from the second token
with surrounding brackets trimmed and split once on a space (client
defaulting to "unknown"), and whose command is the untouched remainder. -/
def parse_monitor_output (fmt : Int → String) (line : List Char) : Option MonitorEntry :=
  if line.isEmpty then none
  else
    match splitn3 ' ' line with
    | [ts_raw, p1, p2] =>
      let timestamp :=
        match parseF64trunc ts_raw with
        | some secs => fmt secs
        | none => String.mk ts_raw
      let client_db := trimBrackets p1
      let command := String.mk p2
      let client_parts := splitn2 ' ' client_db
      let db := String.mk (((client_parts.get? 0).getD "0".data))
      let client := String.mk (((client_parts.get? 1).getD "unknown".data))
      some { timestamp := timestamp, db := db, client := client, command := command }
    | _ => none

/-- Rust `str::trim`: strip leading and trailing whitespace. -/
def trimChars (l : List Char) : List Char :=
  ((l.dropWhile Char.isWhitespace).reverse.dropWhile Char.isWhitespace).reverse

/-- The monitor read-loop's handling of one raw line (src/main.rs): trim
it, require a leading `+` status marker (`starts_with('+')`), strip the
marker (`&line[1..]`), and hand the rest to `parse_monitor_output`. -/
def monitor_line_step (fmt : Int → String) (raw : List Char) : Option MonitorEntry :=
  match trimChars raw with
  | '+' :: rest => parse_monitor_output fmt rest
  | _ => none

/-- A run of consecutive forward page steps, each consuming the server
reply of its fetch. -/
def next_pages (rs : List ScanReply) (s : App) : App :=
  rs.foldl (fun st r => next_page r st) s

/-- A run of consecutive backward page steps. -/
def prev_pages (rs : List ScanReply) (s : App) : App :=
  rs.foldl (fun st r => prev_page r st) s

/-- One user pagination call: `]` (forward) or `[` (backward), together
with the reply the triggered fetch would obtain. -/
inductive PageOp where
  | fwd (reply : ScanReply)
  | bwd (reply : ScanReply)
  deriving DecidableEq, Repr

/-- Apply one pagination call. -/
def page_step (s : App) (op : PageOp) : App :=
  match op with
  | PageOp.fwd r => next_page r s
  | PageOp.bwd r => prev_page r s

/-- Apply a sequence of pagination calls in order. -/
def run_ops (ops : List PageOp) (s : App) : App :=
  ops.foldl page_step s

/-- Count, along the trajectory of a call sequence, the forward calls that
actually advance (`next_cursor != 0`, which push a cursor) and the backward
calls that actually pop (nonempty stack); the remaining calls are no-ops in
the code. -/
def eff_counts : List PageOp → App → Nat × Nat
  | [], _ => (0, 0)
  | PageOp.fwd r :: rest, s =>
    let c := eff_counts rest (next_page r s)
    if s.pagination.next_cursor ≠ 0 then (c.1 + 1, c.2) else c
  | PageOp.bwd r :: rest, s =>
    let c := eff_counts rest (prev_page r s)
    if s.pagination.cursor_stack ≠ [] then (c.1, c.2 + 1) else c

/-- The cursor at the bottom of the history stack, or the current cursor
when the history is empty: the value a fully unwound backward run returns
to. -/
def stack_bottom (s : App) : Nat :=
  s.pagination.cursor_stack.getLast?.getD s.pagination.cursor

/-! ### Frame lemmas for the pagination engine -/

theorem apply_filter_pagination (s : App) : (apply_filter s).pagination = s.pagination := by
  simp only [apply_filter]
  split <;> split <;> first | rfl | (split <;> rfl)

theorem apply_filter_all_keys (s : App) : (apply_filter s).all_keys = s.all_keys := by
  simp only [apply_filter]
  split <;> split <;> first | rfl | (split <;> rfl)

theorem apply_filter_filter_text (s : App) : (apply_filter s).filter_text = s.filter_text := by
  simp only [apply_filter]
  split <;> split <;> first | rfl | (split <;> rfl)

theorem fetch_keys_pagination (r : ScanReply) (p : Option String) (s : App) :
    (fetch_keys r p s).pagination =
      { s.pagination with total_keys := r.total, next_cursor := r.next_cursor } := by
  simp only [fetch_keys]
  rw [apply_filter_pagination]

theorem next_page_pagination (r : ScanReply) (s : App) :
    (next_page r s).pagination =
      if s.pagination.next_cursor ≠ 0 then
        { s.pagination with
            cursor_stack := s.pagination.cursor :: s.pagination.cursor_stack
            cursor := s.pagination.next_cursor
            total_keys := r.total
            next_cursor := r.next_cursor }
      else s.pagination := by
  simp only [next_page]
  split
  · rw [fetch_keys_pagination]
  · rfl

theorem prev_page_pagination (r : ScanReply) (s : App) :
    (prev_page r s).pagination =
      match s.pagination.cursor_stack with
      | [] => s.pagination
      | prev :: rest =>
        { s.pagination with
            cursor := prev
            cursor_stack := rest
            total_keys := r.total
            next_cursor := r.next_cursor } := by
  cases h : s.pagination.cursor_stack with
  | nil => simp only [prev_page, h]
  | cons prev rest => simp only [prev_page, h, fetch_keys_pagination]

theorem next_page_noop (r : ScanReply) (s : App) (h : s.pagination.next_cursor = 0) :
    next_page r s = s := by
  simp [next_page, h]

theorem prev_page_noop (r : ScanReply) (s : App) (h : s.pagination.cursor_stack = []) :
    prev_page r s = s := by
  unfold prev_page
  split
  · rfl
  · rename_i prev rest heq
    rw [h] at heq
    exact absurd heq.symm (List.cons_ne_nil prev rest)

/-- For a nonempty list, `getLast?.getD` does not depend on the default. -/
theorem getLastD_default_irrel {α : Type} (a : α) (t : List α) (x y : α) :
    (a :: t).getLast?.getD x = (a :: t).getLast?.getD y := by
  induction t generalizing a with
  | nil => rfl
  | cons b u ih => rw [List.getLast?_cons_cons]; exact ih b

theorem next_page_stack_of_ne (r : ScanReply) (s : App) (h : s.pagination.next_cursor ≠ 0) :
    (next_page r s).pagination.cursor_stack = s.pagination.cursor :: s.pagination.cursor_stack := by
  rw [next_page_pagination]
  simp [h]

theorem prev_page_stack_length (r : ScanReply) (s : App) :
    (prev_page r s).pagination.cursor_stack.length = s.pagination.cursor_stack.length - 1 := by
  rw [prev_page_pagination]
  cases h : s.pagination.cursor_stack <;> simp [h]

theorem next_page_stack_length_le (r : ScanReply) (s : App) :
    (next_page r s).pagination.cursor_stack.length ≤ s.pagination.cursor_stack.length + 1 := by
  rw [next_page_pagination]
  split <;> simp

theorem stack_bottom_next_page (r : ScanReply) (s : App) :
    stack_bottom (next_page r s) = stack_bottom s := by
  by_cases h : s.pagination.next_cursor = 0
  · rw [next_page_noop r s h]
  · simp only [stack_bottom, next_page_pagination, if_pos h]
    cases hs : s.pagination.cursor_stack with
    | nil => simp [hs]
    | cons a t =>
      simp only [hs, List.getLast?_cons_cons]
      exact getLastD_default_irrel a t _ _

theorem stack_bottom_prev_page (r : ScanReply) (s : App) :
    stack_bottom (prev_page r s) = stack_bottom s := by
  simp only [stack_bottom, prev_page_pagination]
  cases hs : s.pagination.cursor_stack with
  | nil => simp [hs]
  | cons prev rest =>
    cases rest with
    | nil => simp
    | cons a t =>
      simp only [List.getLast?_cons_cons]
      exact getLastD_default_irrel a t _ _

theorem stack_bottom_next_pages (rs : List ScanReply) (s : App) :
    stack_bottom (next_pages rs s) = stack_bottom s := by
  induction rs generalizing s with
  | nil => rfl
  | cons r t ih =>
    simp only [next_pages, List.foldl_cons] at ih ⊢
    rw [ih, stack_bottom_next_page]

theorem stack_bottom_prev_pages (rs : List ScanReply) (s : App) :
    stack_bottom (prev_pages rs s) = stack_bottom s := by
  induction rs generalizing s with
  | nil => rfl
  | cons r t ih =>
    simp only [prev_pages, List.foldl_cons] at ih ⊢
    rw [ih, stack_bottom_prev_page]

theorem prev_pages_stack_length (rs : List ScanReply) (s : App) :
    (prev_pages rs s).pagination.cursor_stack.length =
      s.pagination.cursor_stack.length - rs.length := by
  induction rs generalizing s with
  | nil => rfl
  | cons r t ih =>
    simp only [prev_pages, List.foldl_cons] at ih ⊢
    rw [ih, prev_page_stack_length]
    simp [Nat.sub_sub, Nat.add_comm]

theorem next_pages_stack_length_le (rs : List ScanReply) (s : App) :
    (next_pages rs s).pagination.cursor_stack.length ≤
      s.pagination.cursor_stack.length + rs.length := by
  induction rs generalizing s with
  | nil => simp [next_pages]
  | cons r t ih =>
    simp only [next_pages, List.foldl_cons, List.length_cons] at ih ⊢
    have h1 := next_page_stack_length_le r s
    have h2 := ih (next_page r s)
    omega

/-! ### Ring buffer lemmas -/

theorem ringPush_length_le {α : Type} (cap : Nat) (e : α) (l : List α)
    (h : l.length ≤ cap) : (ringPush cap e l).length ≤ cap := by
  simp only [ringPush]
  split
  · rename_i hgt
    simp only [List.length_dropLast, List.length_cons]
    omega
  · rename_i hle
    simp only [List.length_cons]
    simp only [List.length_cons, Nat.not_lt] at hle
    omega

theorem ringPush_eq_take {α : Type} (cap : Nat) (e : α) (l : List α)
    (h : l.length ≤ cap) : ringPush cap e l = (e :: l).take cap := by
  simp only [ringPush]
  split
  · rename_i hgt
    simp only [List.length_cons, gt_iff_lt] at hgt
    rw [List.dropLast_eq_take]
    simp only [List.length_cons]
    congr 1
    omega
  · rename_i hle
    rw [List.take_of_length_le]
    simp only [List.length_cons, gt_iff_lt, Nat.not_lt] at hle
    exact hle

theorem foldl_ringPush {α : Type} (cap : Nat) (xs acc : List α) (h : acc.length ≤ cap) :
    List.foldl (fun b e => ringPush cap e b) acc xs = (xs.reverse ++ acc).take cap := by
  induction xs generalizing acc with
  | nil =>
    simp only [List.foldl_nil, List.reverse_nil, List.nil_append]
    exact (List.take_of_length_le h).symm
  | cons x t ih =>
    rw [List.foldl_cons, ih (ringPush cap x acc) (ringPush_length_le cap x acc h),
        ringPush_eq_take cap x acc h, List.reverse_cons, List.append_assoc,
        List.singleton_append, List.take_append_eq_append_take,
        List.take_append_eq_append_take, List.take_take]
    congr 2
    exact min_eq_left (Nat.sub_le _ _)

/-! ### Filter lemmas -/

theorem containsSeq_nil_needle (l : List Char) : containsSeq l [] = true := by
  cases l with
  | nil => rfl
  | cons a t => rw [containsSeq]; rfl

theorem apply_filter_scan_result (s : App) :
    (apply_filter s).scan_result =
      s.all_keys.filter
        (fun k => containsSeq (lowerString k.key).data (lowerString s.filter_text).data) := by
  by_cases hf : s.filter_text.isEmpty
  · have hft : s.filter_text = "" := (String.isEmpty_iff s.filter_text).mp hf
    simp only [apply_filter, hf, if_true]
    have hfilter :
        s.all_keys.filter
          (fun k => containsSeq (lowerString k.key).data (lowerString s.filter_text).data)
          = s.all_keys := by
      apply List.filter_eq_self.mpr
      intro a _
      rw [hft]
      exact containsSeq_nil_needle _
    rw [hfilter]
    split
    · split <;> rfl
    · rfl
  · simp only [apply_filter]
    rw [if_neg hf]
    split
    · split <;> rfl
    · rfl

theorem fetch_keys_all_keys (r : ScanReply) (p : Option String) (s : App) :
    (fetch_keys r p s).all_keys = r.keys := by
  simp only [fetch_keys]
  rw [apply_filter_all_keys]

theorem run_ops_stack_length (ops : List PageOp) (s : App) :
    (run_ops ops s).pagination.cursor_stack.length + (eff_counts ops s).2
      = s.pagination.cursor_stack.length + (eff_counts ops s).1 := by
  induction ops generalizing s with
  | nil => rfl
  | cons op rest ih =>
    cases op with
    | fwd r =>
      simp only [run_ops, List.foldl_cons, page_step, eff_counts]
      by_cases h : s.pagination.next_cursor = 0
      · rw [if_neg (by simp [h])]
        rw [next_page_noop r s h]
        exact ih s
      · rw [if_pos h]
        have hlen : (next_page r s).pagination.cursor_stack.length
            = s.pagination.cursor_stack.length + 1 := by
          rw [next_page_stack_of_ne r s h]
          rfl
        have hih := ih (next_page r s)
        simp only [run_ops] at hih ⊢
        omega
    | bwd r =>
      simp only [run_ops, List.foldl_cons, page_step, eff_counts]
      by_cases hs : s.pagination.cursor_stack = []
      · rw [if_neg (by simp [hs])]
        rw [prev_page_noop r s hs]
        exact ih s
      · rw [if_pos hs]
        have hlen : (prev_page r s).pagination.cursor_stack.length
            = s.pagination.cursor_stack.length - 1 := prev_page_stack_length r s
        have hpos : 0 < s.pagination.cursor_stack.length := List.length_pos.mpr hs
        have hih := ih (prev_page r s)
        simp only [run_ops] at hih ⊢
        omega

/-! ### Parser shape lemmas -/

theorem splitn3_length_le (c : Char) (l : List Char) : (splitn3 c l).length ≤ 3 := by
  simp only [splitn3]
  cases h1 : splitOnceChar c l with
  | none => simp
  | some a =>
    obtain ⟨a1, a2⟩ := a
    cases h2 : splitOnceChar c a2 with
    | none => simp [h2]
    | some b =>
      obtain ⟨b1, b2⟩ := b
      simp [h2]

theorem splitn3_nil (c : Char) : splitn3 c [] = [[]] := rfl

/-! ### Sample values used by concrete witnesses and counterexamples -/

/-- A server reply whose scan continuation cursor is 0 (a completed lap). -/
def sampleReply : ScanReply := { total := 0, next_cursor := 0, keys := [] }

/-- A sample parsed monitor entry. -/
def sampleEntry : MonitorEntry :=
  { timestamp := "2023-11-14 22:13:20", db := "0", client := "c", command := "\"PING\"" }

/-- A sample instantiation of the abstracted chrono local-time formatter. -/
def constFmt : Int → String := fun _ => "ts"

/-! ### Claims -/

/-- C1 (counterexample): the claim that after cancelling a collector and
starting a replacement, every event whose generation id predates the
currently active generation is discarded by the update loop and never
inserted into the ring buffer, is false for the code: events carry no
generation id and the `MonitorCommand` handler checks only the
`monitor_active` flag.  Concretely: start the monitor (generation 1), stop
it, start the replacement (generation 2, the active generation — witnessed
by `monitor_spawns = 2`); a stray event of the cancelled generation-1
collector arriving now has its payload inserted into the ring buffer. -/
theorem c1_stale_event_inserted :
    (start_monitor (stop_monitor (start_monitor appDefault))).monitor_spawns = 2
    ∧ (1 : Nat) < 2
    ∧ (handle_monitor_command 1 sampleEntry
        (start_monitor (stop_monitor (start_monitor appDefault)))).monitor_entries
      = [sampleEntry] :=
  ⟨rfl, by decide, rfl⟩

/-- C1 (amended): the update loop discards monitor events by the
`monitor_active` flag alone, not by generation: whenever the flag is false
(between `stop_monitor` and the start of a replacement) the event is
dropped and the state is unchanged; once a replacement is active the
handler inserts events regardless of which collector instance produced
them (the counterexample exhibits a stale insertion). -/
theorem c1_inactive_discards (s : App) (gen : Nat) (e : MonitorEntry)
    (h : s.monitor_active = false) : handle_monitor_command gen e s = s := by
  simp [handle_monitor_command, h]

/-- C1 (witness): `c1_inactive_discards` at a concrete stopped state. -/
theorem c1_inactive_discards_witness :
    (stop_monitor (start_monitor appDefault)).monitor_active = false
    ∧ handle_monitor_command 1 sampleEntry (stop_monitor (start_monitor appDefault))
        = stop_monitor (start_monitor appDefault) :=
  ⟨rfl, c1_inactive_discards _ 1 sampleEntry rfl⟩

/-- C2 (counterexample): a monitor wire line lacking the bracketed
descriptor does not necessarily produce no entry:
`"1700000000.123456 0 \"PING\""` contains no bracket characters at all,
yet the parser returns an entry. -/
theorem c2_bracketless_line_parses :
    (parse_monitor_output constFmt "1700000000.123456 0 \"PING\"".data).isSome = true := by
  rfl

/-- C2 (amended): the parser discards a line precisely when the line is
empty or its first-two-spaces split yields fewer than three pieces; the
presence of bracket markers is not required (brackets, when present, are
merely trimmed from the second piece), and no error is possible — the
parser is total. -/
theorem c2_discard_characterization (fmt : Int → String) (line : List Char) :
    parse_monitor_output fmt line = none ↔ line = [] ∨ (splitn3 ' ' line).length < 3 := by
  by_cases he : line = []
  · subst he
    simp [parse_monitor_output]
  · have hne : line.isEmpty = false := by
      cases line with
      | nil => exact absurd rfl he
      | cons a t => rfl
    simp only [parse_monitor_output]
    rw [if_neg (by simp [hne])]
    have hle := splitn3_length_le ' ' line
    cases h3 : splitn3 ' ' line with
    | nil => simp [he]
    | cons a t =>
      cases t with
      | nil => simp [he]
      | cons b u =>
        cases u with
        | nil => simp [he]
        | cons c2 v =>
          cases v with
          | nil => simp [he]
          | cons d w =>
            rw [h3] at hle
            simp at hle

/-- C3 (counterexample): a consumer-group creation failure that is not
"group already exists" is not fatal for the collector instance: the poll
loop still runs and still emits events.  Here creation fails with a
NOPERM-style error, yet the one record returned by the first poll is
emitted. -/
theorem c3_creation_failure_not_fatal :
    stream_consumer (Except.error "NOPERM User does not have permissions")
        [PollResult.ok [("mystream", [("1-1", [("k", "v")])])]]
      = [{ id := "1-1", fields := [("k", "v")] }]
    ∧ ([{ id := "1-1", fields := [("k", "v")] }] : List StreamEntry) ≠ [] :=
  ⟨rfl, by decide⟩

/-- C3 (amended): the stream consumer binds the XGROUP CREATE reply to a
variable that is only logged; the events it emits are entirely independent
of that reply — success, "group already exists" and every other failure
are all ignored alike. -/
theorem c3_xgroup_result_ignored (r1 r2 : Except String String)
    (polls : List PollResult) :
    stream_consumer r1 polls = stream_consumer r2 polls := rfl

/-- C4: a capacity-1000 ring buffer maintained by the update-loop handlers
(the identical insertion pattern for monitor entries, stream records and
channel messages), starting from any admissible content (length at most
the capacity; the handlers start it empty) and subjected to 1500
sequential head-insertions, contains exactly the 1000 most recently
inserted items, ordered most-recent-first. -/
theorem c4_ring_buffer_keeps_most_recent {α : Type} (acc xs : List α)
    (hacc : acc.length ≤ 1000) (hxs : xs.length = 1500) :
    List.foldl (fun b e => ringPush 1000 e b) acc xs = (xs.drop 500).reverse := by
  rw [foldl_ringPush 1000 xs acc hacc, List.take_append_eq_append_take]
  have h1 : xs.reverse.length = 1500 := by simp [hxs]
  have h2 : (1000 : Nat) - xs.reverse.length = 0 := by omega
  rw [h2]
  simp only [List.take_zero, List.append_nil]
  rw [List.reverse_drop, hxs]

/-- C4 (witness): `c4_ring_buffer_keeps_most_recent` at the empty buffer
and the 1500 concrete insertions `0, 1, ..., 1499`. -/
theorem c4_ring_buffer_keeps_most_recent_witness :
    (([] : List Nat).length ≤ 1000 ∧ (List.range 1500).length = 1500)
    ∧ List.foldl (fun b e => ringPush 1000 e b) ([] : List Nat) (List.range 1500)
      = ((List.range 1500).drop 500).reverse :=
  ⟨⟨by decide, by simp⟩,
    c4_ring_buffer_keeps_most_recent [] (List.range 1500) (by decide) (by simp)⟩

/-- The pagination state reached from a fresh `App` by one fetch whose
scan reply carried continuation cursor 5, followed by one forward step
whose fetch reply completed the lap (continuation cursor 0): cursor 5,
history [0], next cursor 0 — a state the running program can reach. -/
def lapEndState : App :=
  next_page sampleReply
    (fetch_keys { total := 0, next_cursor := 5, keys := [] } none appDefault)

/-- C5 (counterexample): N forward steps followed by N backward steps do
not return the cursor to its prior value from every pagination state: at
`lapEndState` (cursor 5, history [0], next cursor 0) with N = 1, the
forward step is a no-op (zero next cursor) but the backward step still
pops the pre-existing history entry, leaving cursor 0 instead of 5. -/
theorem c5_roundtrip_fails :
    lapEndState.pagination.cursor = 5
    ∧ (prev_pages [sampleReply] (next_pages [sampleReply] lapEndState)).pagination.cursor = 0 :=
  ⟨rfl, rfl⟩

/-- C5 (amended): restricted to pagination states whose cursor history is
empty (in particular a freshly started browsing session), N forward steps
followed by N backward steps return the cursor to its initial value,
whatever replies the fetches obtain.  The restriction is forced by the
counterexample: with a nonempty prior history and a completed lap, the
backward pops outnumber the sequence's own pushes. -/
theorem c5_roundtrip_from_empty_history (s : App) (hs : s.pagination.cursor_stack = [])
    (fr br : List ScanReply) (hlen : br.length = fr.length) :
    (prev_pages br (next_pages fr s)).pagination.cursor = s.pagination.cursor := by
  have hbot : stack_bottom (prev_pages br (next_pages fr s)) = stack_bottom s := by
    rw [stack_bottom_prev_pages, stack_bottom_next_pages]
  have hfor : (next_pages fr s).pagination.cursor_stack.length ≤ fr.length := by
    have h := next_pages_stack_length_le fr s
    rw [hs] at h
    simpa using h
  have hlen0 : (prev_pages br (next_pages fr s)).pagination.cursor_stack.length = 0 := by
    rw [prev_pages_stack_length]
    omega
  have hempty : (prev_pages br (next_pages fr s)).pagination.cursor_stack = [] :=
    List.length_eq_zero.mp hlen0
  have h1 : stack_bottom (prev_pages br (next_pages fr s))
      = (prev_pages br (next_pages fr s)).pagination.cursor := by
    rw [stack_bottom, hempty]
    rfl
  have h2 : stack_bottom s = s.pagination.cursor := by
    rw [stack_bottom, hs]
    rfl
  rw [← h1, hbot, h2]

/-- C5 (witness): `c5_roundtrip_from_empty_history` for one forward and
one backward step from the fresh state. -/
theorem c5_roundtrip_from_empty_history_witness :
    appDefault.pagination.cursor_stack = []
    ∧ [sampleReply].length = [sampleReply].length
    ∧ (prev_pages [sampleReply] (next_pages [sampleReply] appDefault)).pagination.cursor
        = appDefault.pagination.cursor :=
  ⟨rfl, rfl, c5_roundtrip_from_empty_history appDefault rfl [sampleReply] [sampleReply] rfl⟩

/-- C6 (counterexample): from the initial pagination state, one forward
step taken and zero backward steps should per the claim leave a history of
length 1 − 0 = 1; but the initial state has `next_cursor = 0`, so the
forward call is a no-op that pushes nothing and the history length is 0. -/
theorem c6_forward_step_not_counted :
    (run_ops [PageOp.fwd sampleReply] appDefault).pagination.cursor_stack.length = 0
    ∧ (run_ops [PageOp.fwd sampleReply] appDefault).pagination.cursor_stack.length ≠ 1 :=
  ⟨rfl, by decide⟩

/-- C6 (amended): for every pagination call sequence from the initial
state, the history length equals the number of effective forward steps
(those made while `next_cursor != 0`, which push) minus the number of
effective backward steps (those made with a nonempty history, which pop);
forward calls made while `next_cursor = 0` and backward calls on an empty
history are no-ops and count as neither, and the pops never outnumber the
pushes. -/
theorem c6_history_length (ops : List PageOp) :
    (run_ops ops appDefault).pagination.cursor_stack.length
      = (eff_counts ops appDefault).1 - (eff_counts ops appDefault).2
    ∧ (eff_counts ops appDefault).2 ≤ (eff_counts ops appDefault).1 := by
  have h := run_ops_stack_length ops appDefault
  have h0 : appDefault.pagination.cursor_stack.length = 0 := rfl
  omega

/-- C7: whenever `next_cursor = 0` after a forward step, the immediately
following forward step is a no-op: the whole state — cursor, next cursor
and the cursor history stack included — is unchanged, and the guard under
which `next_page` performs its fetch is false, so no fetch is issued. -/
theorem c7_zero_next_cursor_noop (s : App) (r r2 : ScanReply)
    (h : (next_page r s).pagination.next_cursor = 0) :
    next_page r2 (next_page r s) = next_page r s
    ∧ next_page_fetches (next_page r s) = false := by
  refine ⟨next_page_noop r2 (next_page r s) h, ?_⟩
  simp [next_page_fetches, h]

/-- C7 (witness): `c7_zero_next_cursor_noop` at the fresh state, whose
forward step leaves a zero next cursor. -/
theorem c7_zero_next_cursor_noop_witness :
    (next_page sampleReply appDefault).pagination.next_cursor = 0
    ∧ (next_page sampleReply (next_page sampleReply appDefault)
          = next_page sampleReply appDefault
        ∧ next_page_fetches (next_page sampleReply appDefault) = false) :=
  ⟨rfl, c7_zero_next_cursor_noop appDefault sampleReply sampleReply rfl⟩

/-- C8: applying the filter narrows the displayed rows of the currently
fetched page to exactly the keys containing the filter text as a
case-insensitive substring; the filter application and the filter-typing
and backspace key handlers consume no server reply and leave the
pagination state and the fetched page untouched (no network call); the
explicit filter commit resets the cursor to 0, clears the history, and
performs a fresh server-side fetch whose reply repopulates the page and
the continuation cursor. -/
theorem c8_filter_is_client_side :
    (∀ s : App, (apply_filter s).scan_result
        = s.all_keys.filter
            (fun k => containsSeq (lowerString k.key).data (lowerString s.filter_text).data))
    ∧ (∀ s : App, (apply_filter s).pagination = s.pagination
        ∧ (apply_filter s).all_keys = s.all_keys)
    ∧ (∀ (s : App) (c : Char), (filter_type_char c s).pagination = s.pagination
        ∧ (filter_type_char c s).all_keys = s.all_keys)
    ∧ (∀ s : App, (filter_backspace s).pagination = s.pagination
        ∧ (filter_backspace s).all_keys = s.all_keys)
    ∧ (∀ (s : App) (r : ScanReply),
        (filter_commit r s).pagination.cursor = 0
        ∧ (filter_commit r s).pagination.cursor_stack = []
        ∧ (filter_commit r s).pagination.next_cursor = r.next_cursor
        ∧ (filter_commit r s).all_keys = r.keys) := by
  refine ⟨apply_filter_scan_result,
          fun s => ⟨apply_filter_pagination s, apply_filter_all_keys s⟩,
          fun s c => ⟨?_, ?_⟩, fun s => ⟨?_, ?_⟩, fun s r => ⟨?_, ?_, ?_, ?_⟩⟩
  · simp [filter_type_char, apply_filter_pagination]
  · simp [filter_type_char, apply_filter_all_keys]
  · simp [filter_backspace, apply_filter_pagination]
  · simp [filter_backspace, apply_filter_all_keys]
  · simp [filter_commit, fetch_keys_pagination]
  · simp [filter_commit, fetch_keys_pagination]
  · simp [filter_commit, fetch_keys_pagination]
  · simp [filter_commit, fetch_keys_all_keys]

/-- C9: evaluation of the monitor line parser at the specified example
line, for every local-time formatter.  The claim expects db "0", client
"127.0.0.1:51512" and command "\"SET\" \"foo\" \"bar\""; but the code's
`splitn(3, ' ')` splits at the space inside the bracketed descriptor, so
the entry actually produced keeps db "0" while the client field is
"unknown" (the second piece "[0" never contains a space, so the client arm
of the inner split can never fire) and the command string still carries
the rest of the descriptor.  Only the timestamp behaves as claimed: it is
derived from epoch seconds 1700000000. -/
theorem c9_actual_parse_of_example (fmt : Int → String) :
    monitor_line_step fmt "+1700000000.123456 [0 127.0.0.1:51512] \"SET\" \"foo\" \"bar\"".data
      = some { timestamp := fmt 1700000000, db := "0", client := "unknown",
               command := "127.0.0.1:51512] \"SET\" \"foo\" \"bar\"" } := by
  rfl

/-- C10: a monitor line splitting into three pieces whose first piece does
not parse as a float is not discarded: the parser still returns an entry,
and the entry's timestamp field is the raw first token verbatim. -/
theorem c10_nonfloat_timestamp_fallback (fmt : Int → String) (line p0 p1 p2 : List Char)
    (h3 : splitn3 ' ' line = [p0, p1, p2]) (hf : parseF64trunc p0 = none) :
    ∃ e, parse_monitor_output fmt line = some e ∧ e.timestamp = String.mk p0 := by
  have hne : line.isEmpty = false := by
    cases line with
    | nil => rw [splitn3_nil] at h3; simp at h3
    | cons a t => rfl
  simp only [parse_monitor_output]
  rw [if_neg (by simp [hne]), h3]
  simp only [hf]
  exact ⟨_, rfl, rfl⟩

/-- C10 (witness): the fallback at the concrete line
"abc [0 1.2.3.4:5] \"GET\"", whose first token "abc" fails float
parsing. -/
theorem c10_nonfloat_timestamp_fallback_witness :
    splitn3 ' ' "abc [0 1.2.3.4:5] \"GET\"".data
        = ["abc".data, "[0".data, "1.2.3.4:5] \"GET\"".data]
    ∧ parseF64trunc "abc".data = none
    ∧ ∃ e, parse_monitor_output constFmt "abc [0 1.2.3.4:5] \"GET\"".data = some e
        ∧ e.timestamp = String.mk "abc".data :=
  ⟨rfl, rfl, c10_nonfloat_timestamp_fallback constFmt _ _ _ _ rfl rfl⟩

end Tredis
